import Mathlib

/-!
Verification of the invoice-generator pipeline (CSV loading and validation,
filename sanitization, template rendering contract, generation orchestration)
as a shallow embedding of the Python sources `src/models.py`,
`src/csv_parser.py`, `src/renderer.py` and `src/main.py`.
-/

namespace InvoiceGen

/-! ## Character and string helpers (embedding of Python string operations) -/

/-- Split a list of characters at every occurrence of `sep`
(the behaviour of splitting a string on a single-character separator). -/
def splitOnChar (sep : Char) (cs : List Char) : List (List Char) :=
  match cs with
  | [] => [[]]
  | c :: rest =>
    match splitOnChar sep rest with
    | [] => [[]]
    | p :: ps => if c = sep then [] :: p :: ps else (c :: p) :: ps

/-- True when the list is nonempty and all characters are ASCII digits. -/
def allDigits1 (cs : List Char) : Bool :=
  decide (cs ≠ []) && cs.all Char.isDigit

/-- Numeric value of a list of ASCII digit characters (most significant first). -/
def natOfDigits (cs : List Char) : Nat :=
  cs.foldl (fun a c => a * 10 + (c.toNat - 48)) 0

/-! ## Date validation (embedding of `InvoiceRow.validate_date_format`,
`datetime.strptime(v, "%Y-%m-%d")`). CPython's `_strptime` compiles the
format to a regex matched against the whole string: `%Y` is `\d\d\d\d`
(exactly four digits), `%m` is `1[0-2]|0[1-9]|[1-9]` (a 1-2 digit month
1..12), `%d` is `3[01]|[12]\d|0[1-9]|[1-9]| [1-9]` (a 1-2 digit day 1..31
or a space followed by a nonzero digit); the `datetime` constructor then
requires year ≥ 1 and a calendar-valid day for the month. -/

def isLeapYear (y : Nat) : Bool :=
  y % 4 = 0 && (y % 100 ≠ 0 || y % 400 = 0)

def daysInMonth (y m : Nat) : Nat :=
  if m = 2 then (if isLeapYear y then 29 else 28)
  else if m = 4 || m = 6 || m = 9 || m = 11 then 30
  else 31

/-- `%Y`: exactly four digits. -/
def validYearSeg (ys : List Char) : Bool :=
  decide (ys.length = 4) && ys.all Char.isDigit

/-- `%m`: `1[0-2]|0[1-9]|[1-9]`, i.e. one or two digits with value 1..12. -/
def validMonthSeg (ms : List Char) : Bool :=
  allDigits1 ms && decide (ms.length ≤ 2) &&
  decide (1 ≤ natOfDigits ms) && decide (natOfDigits ms ≤ 12)

/-- `%d`: `3[01]|[12]\d|0[1-9]|[1-9]| [1-9]`, i.e. one or two digits with
value 1..31, or a space followed by a nonzero digit. -/
def validDaySeg (ds : List Char) : Bool :=
  (allDigits1 ds && decide (ds.length ≤ 2) &&
   decide (1 ≤ natOfDigits ds) && decide (natOfDigits ds ≤ 31)) ||
  (match ds with
   | [' ', c] => c.isDigit && decide (c ≠ '0')
   | _ => false)

/-- Numeric value of a day segment (handling the space-padded form). -/
def daySegVal (ds : List Char) : Nat :=
  match ds with
  | [' ', c] => c.toNat - 48
  | _ => natOfDigits ds

/-- `strptime("%Y-%m-%d")` success on the whole string, followed by the
`datetime` constructor's calendar check: the dash-separated segments match
`%Y`, `%m`, `%d`, the year is ≥ 1 and the day fits the month. (The segment
patterns contain no dash, so segment-wise matching equals the full-string
regex match.) -/
def validDateStr (s : String) : Bool :=
  match splitOnChar '-' s.data with
  | [ys, ms, ds] =>
    validYearSeg ys && validMonthSeg ms && validDaySeg ds &&
    (let y := natOfDigits ys
     let m := natOfDigits ms
     let d := daySegVal ds
     decide (1 ≤ y) && decide (1 ≤ d) && decide (d ≤ daysInMonth y m))
  | _ => false

/-! ## Decimal parsing (embedding of the `Decimal` coercion used by the
`amount` field). `decimal.Decimal(str)` removes leading/trailing whitespace
and all underscores, then parses the numeric-string grammar
`[sign] (digits [. digits] | . digits) [(e|E) [sign] digits]`, or the
special values `Infinity`/`Inf`, `[s]NaN[digits]` (case-insensitive, after
an optional sign). pydantic then rejects a non-finite value with a distinct
finite-number error, and checks `gt=0` on finite values. Whitespace is
modelled over the ASCII range. -/

/-- Split at the first character satisfying `p`; second component is `none`
when no such character occurs. -/
def splitAtFirst (p : Char → Bool) (cs : List Char) : List Char × Option (List Char) :=
  match cs with
  | [] => ([], none)
  | c :: rest =>
    if p c then ([], some rest)
    else
      let (a, b) := splitAtFirst p rest
      (c :: a, b)

/-- Strip one optional leading sign, returning the sign as `1` or `-1`. -/
def parseSign (cs : List Char) : Int × List Char :=
  match cs with
  | '+' :: rest => (1, rest)
  | '-' :: rest => (-1, rest)
  | _ => (1, cs)

/-- An exact finite decimal value, as `Decimal` represents it: a signed
integer coefficient and a power-of-ten exponent; the value is
`coeff * 10 ^ exp`. -/
structure DecimalVal where
  coeff : Int
  exp : Int
deriving DecidableEq, Repr

/-- The exact rational value of a finite decimal. -/
def DecimalVal.toRat (d : DecimalVal) : Rat := (d.coeff : Rat) * (10 : Rat) ^ d.exp

/-- Result of a successful `Decimal` construction: a finite value, or one of
the non-finite special values (`±Infinity`, `[s]NaN`), which pydantic's
finiteness check then rejects as a group. -/
inductive DecParse where
  | finite (d : DecimalVal) : DecParse
  | nonFinite : DecParse
deriving DecidableEq, Repr

/-- ASCII whitespace, as stripped by `str.strip`. -/
def isWsChar (c : Char) : Bool :=
  c = ' ' || c = '\t' || c = '\n' || c = '\r' || c = '\x0b' || c = '\x0c'

/-- Strip leading and trailing whitespace. -/
def trimWs (cs : List Char) : List Char :=
  ((cs.dropWhile isWsChar).reverse.dropWhile isWsChar).reverse

/-- ASCII lowercasing (the parse of the special values is
case-insensitive). -/
def asciiLower (c : Char) : Char :=
  if 65 ≤ c.toNat && c.toNat ≤ 90 then Char.ofNat (c.toNat + 32) else c

/-- `Inf` / `Infinity`, case-insensitive. -/
def isInfStr (cs : List Char) : Bool :=
  let l := cs.map asciiLower
  l = ['i', 'n', 'f'] || l = ['i', 'n', 'f', 'i', 'n', 'i', 't', 'y']

/-- `NaN` / `sNaN` with optional digit diagnostic, case-insensitive. -/
def isNanStr (cs : List Char) : Bool :=
  match cs.map asciiLower with
  | 'n' :: 'a' :: 'n' :: rest => rest.all Char.isDigit
  | 's' :: 'n' :: 'a' :: 'n' :: rest => rest.all Char.isDigit
  | _ => false

/-- Parse a string as `decimal.Decimal` does: underscores removed and
whitespace trimmed, then an optional sign followed by either a finite
numeric literal (`digits [. digits]` or `. digits`, with an optional
`(e|E) [sign] digits` exponent) or a non-finite special value. Returns
`none` on any other input. -/
def parseDecimal (s : String) : Option DecParse :=
  let cs0 := trimWs (s.data.filter (fun c => c ≠ '_'))
  let (sgn, cs) := parseSign cs0
  if isInfStr cs || isNanStr cs then some .nonFinite
  else
    let (mant, expPart) := splitAtFirst (fun c => c = 'e' || c = 'E') cs
    let (ip, fpOpt) := splitAtFirst (fun c => c = '.') mant
    let fp := fpOpt.getD []
    if (ip ++ fp).isEmpty then none
    else if !(ip ++ fp).all Char.isDigit then none
    else
      let coeff : Int := sgn * (natOfDigits (ip ++ fp) : Int)
      match expPart with
      | none => some (.finite ⟨coeff, -(fp.length : Int)⟩)
      | some ecs =>
        let (esgn, eds) := parseSign ecs
        if allDigits1 eds then
          some (.finite ⟨coeff, esgn * (natOfDigits eds : Int) - (fp.length : Int)⟩)
        else none

/-! ## Record schema (embedding of `src/models.py`) -/

/-- pydantic message for a violated `min_length=1` constraint. -/
def minLenMsg : String := "String should have at least 1 character"

/-- pydantic message for the failing `validate_date_format` validator. -/
def dateMsg : String := "Value error, Date must be in YYYY-MM-DD format"

/-- pydantic message for a string that does not parse as a decimal. -/
def decimalMsg : String := "Input should be a valid decimal"

/-- pydantic message for a decimal that parses but is not finite. -/
def finiteMsg : String := "Input should be a finite number"

/-- pydantic message for a violated `gt=0` constraint. -/
def gtMsg : String := "Input should be greater than 0"

/-- The raw text of one CSV data row, keyed by the five required columns
(extra CSV columns are ignored by the model, pydantic default `extra`
handling). -/
structure RawRow where
  transaction_id : String
  customer_name : String
  date : String
  item : String
  amount : String
deriving DecidableEq, Repr

/-- A validated invoice row (`InvoiceRow` of `src/models.py`); `amount` is
the exact decimal value. -/
structure InvoiceRow where
  transaction_id : String
  customer_name : String
  date : String
  item : String
  amount : DecimalVal
deriving DecidableEq, Repr

/-- Validated seller information (`SellerInfo` of `src/models.py`). -/
structure SellerInfo where
  full_name : String
  address : String
  ico : String
deriving DecidableEq, Repr

/-- Field-level validation errors of one `InvoiceRow` construction, in
pydantic field-declaration order, one `(field, message)` pair per violated
rule. -/
def rowErrors (r : RawRow) : List (String × String) :=
  (if r.transaction_id.length = 0 then [("transaction_id", minLenMsg)] else []) ++
  (if r.customer_name.length = 0 then [("customer_name", minLenMsg)] else []) ++
  (if validDateStr r.date then [] else [("date", dateMsg)]) ++
  (if r.item.length = 0 then [("item", minLenMsg)] else []) ++
  (match parseDecimal r.amount with
   | none => [("amount", decimalMsg)]
   | some .nonFinite => [("amount", finiteMsg)]
   | some (.finite d) => if 0 < d.coeff then [] else [("amount", gtMsg)])

/-- `InvoiceRow(**row_dict)`: yields a validated record, or the full list of
field errors. -/
def validateRow (r : RawRow) : Except (List (String × String)) InvoiceRow :=
  match rowErrors r with
  | [] => .ok
      { transaction_id := r.transaction_id
        customer_name := r.customer_name
        date := r.date
        item := r.item
        amount := match parseDecimal r.amount with
                  | some (.finite d) => d
                  | _ => ⟨0, 0⟩ }
  | es => .error es

/-- Field-level validation errors of `SellerInfo` construction. -/
def sellerErrors (full_name address ico : String) : List (String × String) :=
  (if full_name.length = 0 then [("full_name", minLenMsg)] else []) ++
  (if address.length = 0 then [("address", minLenMsg)] else []) ++
  (if ico.length = 0 then [("ico", minLenMsg)] else [])

/-! ## CSV loading (embedding of `src/csv_parser.py`) -/

/-- A CSV file already split into records: the header row's column names and,
for each data row, the raw values of the five recognized columns. -/
structure CSVFile where
  header : List String
  rows : List RawRow
deriving DecidableEq, Repr

/-- The five required column names, in the order checked by the source. -/
def requiredColumns : List String :=
  ["transaction_id", "customer_name", "date", "item", "amount"]

/-- Lexicographic order on character lists by code point (Python string
comparison, as used by `sorted`). -/
def lexLeb : List Char → List Char → Bool
  | [], _ => true
  | _ :: _, [] => false
  | a :: as, b :: bs =>
    if a.toNat < b.toNat then true
    else if b.toNat < a.toNat then false
    else lexLeb as bs

/-- Lexicographic order on strings by code point. -/
def strLeb (a b : String) : Bool := lexLeb a.data b.data

/-- Insert a string into a sorted list of strings. -/
def insertSorted (s : String) : List String → List String
  | [] => [s]
  | t :: ts => if strLeb s t then s :: t :: ts else t :: insertSorted s ts

/-- Sort a list of strings lexicographically (Python `sorted`). -/
def sortStrs : List String → List String
  | [] => []
  | s :: rest => insertSorted s (sortStrs rest)

/-- `sorted(required_columns - set(fieldnames))`: the required columns absent
from the header (case-exact comparison), in sorted order. -/
def missingCols (header : List String) : List String :=
  sortStrs (requiredColumns.filter (fun c => !header.contains c))

/-- Failure modes of `parse_csv` (file-existence aside, which is an I/O
precondition): the empty/headerless file `ValueError`, the missing-columns
`ValueError`, and `CSVValidationError` carrying the ordered
`(row number, field errors)` list. -/
inductive ParseError where
  | emptyHeader : ParseError
  | missingColumns (cols : List String) : ParseError
  | validationFailed (errors : List (Nat × List (String × String))) : ParseError
deriving DecidableEq, Repr

/-- The loop body of `parse_csv`: validate each row in order, numbering from
`start`; returns the validated rows and the collected `(row number, errors)`
pairs, each in file order. -/
def validateRows (start : Nat) (rows : List RawRow) :
    List InvoiceRow × List (Nat × List (String × String)) :=
  match rows with
  | [] => ([], [])
  | r :: rest =>
    let prev := validateRows (start + 1) rest
    match validateRow r with
    | .ok v => (v :: prev.1, prev.2)
    | .error e => (prev.1, (start, e) :: prev.2)

/-- `parse_csv`: check the header, then validate every data row (numbered
from 2, row 1 being the header), collecting all failures before failing;
a complete header with zero data rows yields `.ok []`. -/
def parse_csv (csv : CSVFile) : Except ParseError (List InvoiceRow) :=
  if csv.header = [] then .error .emptyHeader
  else if missingCols csv.header ≠ [] then
    .error (.missingColumns (missingCols csv.header))
  else if (validateRows 2 csv.rows).2 ≠ [] then
    .error (.validationFailed (validateRows 2 csv.rows).2)
  else .ok (validateRows 2 csv.rows).1

/-! ## Template rendering (contract of `src/renderer.py`): the repository's
`render_invoice` configures the external templating engine with
`autoescape=True`; the engine itself and the built-in template file are not
part of `src/`, so substitution and escaping are modelled from the spec. -/

/-- Modelled from the spec: the markup-escaping applied by the external
templating engine (`autoescape=True`) to each substituted value — the
engine-missing part; structural characters are replaced by entities. -/
def escChar (c : Char) : List Char :=
  if c = '&' then ['&', 'a', 'm', 'p', ';']
  else if c = '<' then ['&', 'l', 't', ';']
  else if c = '>' then ['&', 'g', 't', ';']
  else if c = '"' then ['&', '#', '3', '4', ';']
  else if c = '\'' then ['&', '#', '3', '9', ';']
  else [c]

/-- Escape every character of a list. -/
def escChars (cs : List Char) : List Char :=
  match cs with
  | [] => []
  | c :: rest => escChar c ++ escChars rest

/-- Markup-escape a whole string. -/
def htmlEscape (s : String) : String := ⟨escChars s.data⟩

/-- The text-valued bindings a template may substitute: the seller record's
and the invoice record's user-supplied text fields. -/
inductive TemplateField where
  | sellerName | sellerAddress | sellerIco
  | invTransactionId | invCustomerName | invDate | invItem
deriving DecidableEq, Repr

/-- A template is literal markup interleaved with field substitutions. -/
inductive TemplatePiece where
  | lit (s : String) : TemplatePiece
  | expr (f : TemplateField) : TemplatePiece
deriving DecidableEq, Repr

/-- The user-supplied text bound to a template field. -/
def fieldValue (seller : SellerInfo) (inv : InvoiceRow) :
    TemplateField → String
  | .sellerName => seller.full_name
  | .sellerAddress => seller.address
  | .sellerIco => seller.ico
  | .invTransactionId => inv.transaction_id
  | .invCustomerName => inv.customer_name
  | .invDate => inv.date
  | .invItem => inv.item

/-- Render the template pieces in order, escaping every substituted value. -/
def renderPieces (seller : SellerInfo) (inv : InvoiceRow) :
    List TemplatePiece → List Char
  | [] => []
  | .lit s :: rest => s.data ++ renderPieces seller inv rest
  | .expr f :: rest =>
    escChars (fieldValue seller inv f).data ++ renderPieces seller inv rest

/-- Modelled from the spec: `render_invoice` binds the seller and invoice
records into the template with every user-supplied text value escaped
(`autoescape=True`); the engine's template interpretation, which is not in
`src/`, is modelled as literal/substitution pieces. -/
def render_invoice (tmpl : List TemplatePiece) (seller : SellerInfo)
    (inv : InvoiceRow) : String :=
  ⟨renderPieces seller inv tmpl⟩

/-- The structural markup characters that would let a substituted value open
or close a tag or break out of an attribute. -/
def isMarkupChar (c : Char) : Bool :=
  c = '<' || c = '>' || c = '"' || c = '\''

/-! ## Generation orchestrator (embedding of `src/main.py`) -/

/-- `c.isalnum() or c in ("-", "_", ".")` (alphanumeric modelled over the
ASCII range). -/
def isSafeChar (c : Char) : Bool :=
  c.isAlphanum || c = '-' || c = '_' || c = '.'

/-- `"".join(c for c in transaction_id if keep(c))`. -/
def joinKept (cs : List Char) : List Char :=
  match cs with
  | [] => []
  | c :: rest => if isSafeChar c then c :: joinKept rest else joinKept rest

/-- The sanitized filename stem derived from a transaction identifier. -/
def safeFilename (tid : String) : String := ⟨joinKept tid.data⟩

/-- `f"{safe_filename}.pdf"`. -/
def pdfName (tid : String) : String := safeFilename tid ++ ".pdf"

/-- Result of a generation run (`GenerationResult` of `src/main.py`). -/
structure GenerationResult where
  successful : List String
  failed : List (String × String)
deriving DecidableEq, Repr

def GenerationResult.total (r : GenerationResult) : Nat :=
  r.successful.length + r.failed.length

def GenerationResult.all_succeeded (r : GenerationResult) : Bool :=
  r.failed.length = 0

/-- Precondition failures of `generate_invoices`, in the order the source
raises them: missing template file, invalid seller data, CSV load failure,
empty row sequence. -/
inductive RunError where
  | templateNotFound : RunError
  | sellerInvalid (errors : List (String × String)) : RunError
  | csvError (e : ParseError) : RunError
  | noInvoices : RunError
deriving DecidableEq, Repr

/-- Observable output of one `generate_invoices` call: the returned result or
raised error, the sequence of `(current, total, filename)` progress-callback
invocations in order, and whether the output directory was created. -/
structure RunOutput where
  result : Except RunError GenerationResult
  events : List (Nat × Nat × String)
  dirCreated : Bool
deriving Repr

/-- The per-row loop of `generate_invoices`. `eff idx` is the outcome of
rendering-then-exporting the row processed at 1-based position `idx`
(`.error msg` when `render_invoice` or `html_to_pdf` raises): derive the
filename, attempt the row, append to the success or failure list, then fire
the progress callback — and always continue to the next row. -/
def processRows (eff : Nat → Except String Unit) (total : Nat) :
    Nat → List InvoiceRow → GenerationResult × List (Nat × Nat × String)
  | _, [] => ({ successful := [], failed := [] }, [])
  | idx, inv :: rest =>
    let name := pdfName inv.transaction_id
    let prev := processRows eff total (idx + 1) rest
    match eff idx with
    | .ok _ =>
      ({ successful := name :: prev.1.successful, failed := prev.1.failed },
       (idx, total, name) :: prev.2)
    | .error m =>
      ({ successful := prev.1.successful, failed := (name, m) :: prev.1.failed },
       (idx, total, name) :: prev.2)

/-- `generate_invoices`: check the template path (when one was given,
`templateExists = some b` with `b` its existence), validate the seller,
load the CSV, reject an empty row sequence, create the output directory,
then run the per-row loop. -/
def generate_invoices (templateExists : Option Bool)
    (seller_name seller_address seller_ico : String)
    (csv : CSVFile) (eff : Nat → Except String Unit) : RunOutput :=
  if templateExists = some false then
    { result := .error .templateNotFound, events := [], dirCreated := false }
  else if sellerErrors seller_name seller_address seller_ico ≠ [] then
    { result := .error (.sellerInvalid (sellerErrors seller_name seller_address seller_ico))
      events := [], dirCreated := false }
  else
    match parse_csv csv with
    | .error e =>
      { result := .error (.csvError e), events := [], dirCreated := false }
    | .ok rows =>
      if rows = [] then
        { result := .error .noInvoices, events := [], dirCreated := false }
      else
        { result := .ok (processRows eff rows.length 1 rows).1
          events := (processRows eff rows.length 1 rows).2
          dirCreated := true }

deriving instance DecidableEq for Except

/-! ## Helper lemmas -/

theorem string_empty_iff (s : String) : s.length = 0 ↔ s = "" := by
  constructor
  · intro h
    cases s with
    | mk data =>
      cases data with
      | nil => rfl
      | cons c cs => simp [String.length] at h
  · intro h
    rw [h]
    rfl

theorem validateRow_error (r : RawRow) (h : rowErrors r ≠ []) :
    validateRow r = .error (rowErrors r) := by
  unfold validateRow
  split
  · rename_i heq
    exact absurd heq h
  · rfl

theorem DecimalVal.pos_iff (d : DecimalVal) : 0 < d.coeff ↔ 0 < d.toRat := by
  unfold DecimalVal.toRat
  have hp : (0 : Rat) < (10 : Rat) ^ d.exp := zpow_pos (by norm_num) _
  constructor
  · intro h
    exact mul_pos (by exact_mod_cast h) hp
  · intro h
    by_contra hc
    push_neg at hc
    have hc' : (d.coeff : Rat) ≤ 0 := by exact_mod_cast hc
    nlinarith

theorem validateRow_ok_iff (r : RawRow) :
    (∃ v, validateRow r = .ok v) ↔ rowErrors r = [] := by
  cases h : rowErrors r with
  | nil => simp [validateRow, h]
  | cons e es => simp [validateRow, h]

theorem rowErrors_nil_iff (r : RawRow) :
    rowErrors r = [] ↔
      (r.transaction_id ≠ "" ∧ r.customer_name ≠ "" ∧
       validDateStr r.date = true ∧ r.item ≠ "" ∧
       ∃ d : DecimalVal, parseDecimal r.amount = some (.finite d) ∧
         0 < d.toRat) := by
  have hA : (if r.transaction_id.length = 0
        then [("transaction_id", minLenMsg)]
        else ([] : List (String × String))) = [] ↔ r.transaction_id ≠ "" := by
    by_cases h : r.transaction_id.length = 0 <;>
      simp [h, ← string_empty_iff]
  have hB : (if r.customer_name.length = 0
        then [("customer_name", minLenMsg)]
        else ([] : List (String × String))) = [] ↔ r.customer_name ≠ "" := by
    by_cases h : r.customer_name.length = 0 <;>
      simp [h, ← string_empty_iff]
  have hC : (if validDateStr r.date then ([] : List (String × String))
        else [("date", dateMsg)]) = [] ↔ validDateStr r.date = true := by
    by_cases h : validDateStr r.date <;> simp [h]
  have hD : (if r.item.length = 0 then [("item", minLenMsg)]
        else ([] : List (String × String))) = [] ↔ r.item ≠ "" := by
    by_cases h : r.item.length = 0 <;> simp [h, ← string_empty_iff]
  have hE : (match parseDecimal r.amount with
        | none => [("amount", decimalMsg)]
        | some .nonFinite => [("amount", finiteMsg)]
        | some (.finite d) =>
          if 0 < d.coeff then [] else [("amount", gtMsg)]) = [] ↔
      (∃ d : DecimalVal, parseDecimal r.amount = some (.finite d) ∧
        0 < d.toRat) := by
    cases h : parseDecimal r.amount with
    | none => simp [h]
    | some p =>
      cases p with
      | nonFinite => simp [h]
      | finite d => by_cases hd : 0 < d.coeff <;>
          simp [h, hd, ← DecimalVal.pos_iff]
  rw [rowErrors]
  simp only [List.append_eq_nil]
  rw [hA, hB, hC, hD, hE]
  simp only [and_assoc]

/-! ## Claim theorems -/

/-- Claim C4: schema validation of an invoice row succeeds exactly when the
three plain text fields are non-empty, the date is a calendar-valid
`YYYY-MM-DD` date (leap day `2024-02-29` accepted, `2026-13-45` and
`01/15/2026` rejected; the `strptime` boundary is kept exactly: 4-digit
years only, space-padded days accepted), and the amount parses as an exact
finite decimal strictly greater than zero (`0`, negatives and non-numerics
rejected, `0.01` accepted; `Decimal`'s whitespace/underscore removal and
its non-finite specials are kept exactly); each violated rule contributes
one `(field, message)` pair and a row can carry several at once. -/
theorem claim_C4 :
    (∀ r : RawRow, (∃ v, validateRow r = .ok v) ↔
      (r.transaction_id ≠ "" ∧ r.customer_name ≠ "" ∧
       validDateStr r.date = true ∧ r.item ≠ "" ∧
       ∃ d : DecimalVal, parseDecimal r.amount = some (.finite d) ∧
         0 < d.toRat)) ∧
    validDateStr "2024-02-29" = true ∧
    validDateStr "2026-13-45" = false ∧
    validDateStr "01/15/2026" = false ∧
    validDateStr "5-01-15" = false ∧
    validDateStr "05-01-15" = false ∧
    validDateStr "005-01-15" = false ∧
    validDateStr "2026-01- 5" = true ∧
    validDateStr "2026-1-5" = true ∧
    rowErrors ⟨"T1", "Alice", "2026-01-15", "Widget", "0.01"⟩ = [] ∧
    rowErrors ⟨"T1", "Alice", "2026-01-15", "Widget", " 1.5"⟩ = [] ∧
    rowErrors ⟨"T1", "Alice", "2026-01-15", "Widget", "1_0"⟩ = [] ∧
    rowErrors ⟨"T1", "Alice", "2026-01-15", "Widget", "0"⟩ =
      [("amount", gtMsg)] ∧
    rowErrors ⟨"T1", "Alice", "2026-01-15", "Widget", "-3"⟩ =
      [("amount", gtMsg)] ∧
    rowErrors ⟨"T1", "Alice", "2026-01-15", "Widget", "abc"⟩ =
      [("amount", decimalMsg)] ∧
    rowErrors ⟨"T1", "Alice", "2026-01-15", "Widget", "Infinity"⟩ =
      [("amount", finiteMsg)] ∧
    rowErrors ⟨"T1", "Alice", "2026-01-15", "Widget", "NaN"⟩ =
      [("amount", finiteMsg)] ∧
    rowErrors ⟨"", "Alice", "2026-13-45", "Widget", "0"⟩ =
      [("transaction_id", minLenMsg), ("date", dateMsg), ("amount", gtMsg)] := by
  refine ⟨fun r => (validateRow_ok_iff r).trans (rowErrors_nil_iff r),
    ?_, ?_, ?_, ?_, ?_, ?_, ?_, ?_, ?_, ?_, ?_, ?_, ?_, ?_, ?_, ?_, ?_⟩ <;>
    decide

/-- Claim C8: the output filename keeps exactly the characters of the
transaction identifier that are alphanumeric or `-`, `_`, `.` (all others
removed, none replaced) and appends `.pdf`; `TXN/001*.csv` derives
`TXN001.csv.pdf`. -/
theorem claim_C8 :
    (∀ tid : String, (safeFilename tid).data = tid.data.filter isSafeChar) ∧
    (∀ tid : String, pdfName tid = safeFilename tid ++ ".pdf") ∧
    pdfName "TXN/001*.csv" = "TXN001.csv.pdf" ∧
    isSafeChar 'A' = true ∧ isSafeChar '0' = true ∧ isSafeChar '-' = true ∧
    isSafeChar '_' = true ∧ isSafeChar '.' = true ∧
    isSafeChar '/' = false ∧ isSafeChar '*' = false := by
  have hfilter : ∀ cs : List Char, joinKept cs = cs.filter isSafeChar := by
    intro cs
    induction cs with
    | nil => rfl
    | cons c rest ih =>
      by_cases h : isSafeChar c <;> simp [joinKept, List.filter, h, ih]
  exact ⟨fun tid => hfilter tid.data, fun tid => rfl, by decide, by decide,
    by decide, by decide, by decide, by decide, by decide, by decide⟩

/-- A two-row CSV whose transaction identifiers sanitize to the same name. -/
def csvDup : CSVFile :=
  { header := requiredColumns
    rows := [⟨"A/B", "Alice", "2026-01-15", "Widget", "10"⟩,
             ⟨"AB", "Bob", "2026-01-15", "Gadget", "5"⟩] }

/-- A row effect that always succeeds. -/
def effOk : Nat → Except String Unit := fun _ => .ok ()

/-- Claim C10: filename sanitization is not injective — the distinct
identifiers `A/B` and `AB` derive the same filename, a run containing both
rows reports that filename twice in its success list, and an identifier with
no safe characters sanitizes to the empty stem, giving `.pdf`. -/
theorem claim_C10 :
    ("A/B" : String) ≠ "AB" ∧
    pdfName "A/B" = pdfName "AB" ∧
    safeFilename "///" = "" ∧
    pdfName "///" = ".pdf" ∧
    (generate_invoices none "S" "A" "I" csvDup effOk).result =
      .ok { successful := ["AB.pdf", "AB.pdf"], failed := [] } := by
  refine ⟨by decide, by decide, by decide, by decide, ?_⟩
  rfl

/-- Claim C5: precondition failures are atomic and ordered — a missing
custom template, an invalid seller, or a failing CSV load each abort
`generate_invoices` before any row is processed: no progress event fires, no
success/failure entry is recorded, the output directory is not created, and
the checks happen in the order template existence, seller validation, CSV
load. -/
theorem claim_C5 (te : Option Bool) (n a i : String) (csv : CSVFile)
    (eff : Nat → Except String Unit) :
    (te = some false →
      generate_invoices te n a i csv eff =
        { result := .error .templateNotFound, events := [], dirCreated := false }) ∧
    (te ≠ some false → sellerErrors n a i ≠ [] →
      generate_invoices te n a i csv eff =
        { result := .error (.sellerInvalid (sellerErrors n a i))
          events := [], dirCreated := false }) ∧
    (∀ e : ParseError, te ≠ some false → sellerErrors n a i = [] →
      parse_csv csv = .error e →
      generate_invoices te n a i csv eff =
        { result := .error (.csvError e), events := [], dirCreated := false }) := by
  refine ⟨?_, ?_, ?_⟩
  · intro h
    simp [generate_invoices, h]
  · intro h1 h2
    simp [generate_invoices, h1, h2]
  · intro e h1 h2 h3
    simp [generate_invoices, h1, h2, h3]

/-- A CSV whose header lacks three of the five required columns. -/
def csvMissing : CSVFile := { header := ["transaction_id", "date"], rows := [] }

/-- Witness for C5: each of the three precondition failures observed on a
concrete run. -/
theorem claim_C5_witness :
    generate_invoices (some false) "S" "A" "I" csvDup effOk =
      { result := .error .templateNotFound, events := [], dirCreated := false } ∧
    generate_invoices none "" "A" "I" csvDup effOk =
      { result := .error (.sellerInvalid (sellerErrors "" "A" "I"))
        events := [], dirCreated := false } ∧
    generate_invoices none "S" "A" "I" csvMissing effOk =
      { result := .error (.csvError
          (.missingColumns ["amount", "customer_name", "item"]))
        events := [], dirCreated := false } :=
  ⟨(claim_C5 (some false) "S" "A" "I" csvDup effOk).1 rfl,
   (claim_C5 none "" "A" "I" csvDup effOk).2.1 (by decide) (by decide),
   (claim_C5 none "S" "A" "I" csvMissing effOk).2.2 _ (by decide) rfl (by decide)⟩

/-- Claim C7: a complete header with zero data rows is not a load error —
`parse_csv` returns the empty sequence — and the orchestrator then fails
with the distinct `noInvoices` condition before creating the output
directory, processing any row, or firing any progress event. -/
theorem claim_C7 (te : Option Bool) (n a i : String) (header : List String)
    (eff : Nat → Except String Unit)
    (hh : header ≠ []) (hm : missingCols header = [])
    (hte : te ≠ some false) (hs : sellerErrors n a i = []) :
    parse_csv ⟨header, []⟩ = .ok [] ∧
    generate_invoices te n a i ⟨header, []⟩ eff =
      { result := .error .noInvoices, events := [], dirCreated := false } := by
  have hp : parse_csv ⟨header, []⟩ = .ok [] := by
    simp [parse_csv, hh, hm, validateRows]
  refine ⟨hp, ?_⟩
  simp [generate_invoices, hte, hs, hp]

/-- Witness for C7: a concrete zero-data-row CSV with a complete header. -/
theorem claim_C7_witness :
    parse_csv ⟨requiredColumns, []⟩ = .ok [] ∧
    generate_invoices none "S" "A" "I" ⟨requiredColumns, []⟩ effOk =
      { result := .error .noInvoices, events := [], dirCreated := false } :=
  claim_C7 none "S" "A" "I" requiredColumns effOk (by decide) (by decide)
    (by decide) (by decide)

theorem lexLeb_nil (bs : List Char) : lexLeb [] bs = true := by
  cases bs <;> rfl

theorem lexLeb_cons_iff (a b : Char) (as bs : List Char) :
    lexLeb (a :: as) (b :: bs) = true ↔
      (a.toNat < b.toNat ∨ (a.toNat = b.toNat ∧ lexLeb as bs = true)) := by
  rw [lexLeb]
  by_cases h1 : a.toNat < b.toNat
  · simp [h1]
  · by_cases h2 : b.toNat < a.toNat
    · have hne : a.toNat ≠ b.toNat := by omega
      simp [h1, h2, hne]
    · have heq : a.toNat = b.toNat := by omega
      simp [h1, h2, heq]

theorem lexLeb_total (as : List Char) :
    ∀ bs, lexLeb as bs = false → lexLeb bs as = true := by
  induction as with
  | nil => intro bs h; rw [lexLeb_nil] at h; exact absurd h (by simp)
  | cons a as ih =>
    intro bs h
    cases bs with
    | nil => exact lexLeb_nil _
    | cons b bs =>
      rw [lexLeb] at h
      rw [lexLeb]
      by_cases h1 : a.toNat < b.toNat
      · simp [h1] at h
      · by_cases h2 : b.toNat < a.toNat
        · simp [h2]
        · simp [h1, h2] at h ⊢
          exact ih bs h

theorem lexLeb_trans (as : List Char) :
    ∀ bs cs, lexLeb as bs = true → lexLeb bs cs = true →
      lexLeb as cs = true := by
  induction as with
  | nil => intro bs cs _ _; exact lexLeb_nil _
  | cons a as ih =>
    intro bs cs h1 h2
    cases bs with
    | nil => rw [lexLeb] at h1; exact absurd h1 (by simp)
    | cons b bs =>
      cases cs with
      | nil => rw [lexLeb] at h2; exact absurd h2 (by simp)
      | cons c cs =>
        rw [lexLeb_cons_iff] at h1 h2 ⊢
        rcases h1 with h1 | ⟨h1e, h1r⟩
        · rcases h2 with h2 | ⟨h2e, h2r⟩
          · exact Or.inl (by omega)
          · exact Or.inl (by omega)
        · rcases h2 with h2 | ⟨h2e, h2r⟩
          · exact Or.inl (by omega)
          · exact Or.inr ⟨by omega, ih bs cs h1r h2r⟩

theorem strLeb_total (a b : String) (h : strLeb a b = false) :
    strLeb b a = true := lexLeb_total a.data b.data h

theorem strLeb_trans (a b c : String) (h1 : strLeb a b = true)
    (h2 : strLeb b c = true) : strLeb a c = true :=
  lexLeb_trans a.data b.data c.data h1 h2

theorem mem_insertSorted (s : String) (l : List String) (a : String) :
    a ∈ insertSorted s l ↔ a = s ∨ a ∈ l := by
  induction l with
  | nil => simp [insertSorted]
  | cons t ts ih =>
    rw [insertSorted]
    by_cases h : strLeb s t
    · simp [h]
    · simp [h, ih]
      tauto

theorem mem_sortStrs (l : List String) (a : String) :
    a ∈ sortStrs l ↔ a ∈ l := by
  induction l with
  | nil => simp [sortStrs]
  | cons s rest ih =>
    rw [sortStrs, mem_insertSorted, ih]
    simp

theorem pairwise_insertSorted (s : String) (l : List String)
    (h : l.Pairwise (fun a b => strLeb a b = true)) :
    (insertSorted s l).Pairwise (fun a b => strLeb a b = true) := by
  induction l with
  | nil => simp [insertSorted]
  | cons t ts ih =>
    rw [insertSorted]
    rcases List.pairwise_cons.mp h with ⟨ht, hts⟩
    by_cases hst : strLeb s t = true
    · rw [if_pos hst]
      refine List.pairwise_cons.mpr ⟨?_, h⟩
      intro b hb
      rcases List.mem_cons.mp hb with rfl | hb
      · exact hst
      · exact strLeb_trans s t b hst (ht b hb)
    · rw [if_neg hst]
      refine List.pairwise_cons.mpr ⟨?_, ih hts⟩
      intro b hb
      rcases (mem_insertSorted s ts b).mp hb with rfl | hb
      · exact strLeb_total b t (by simpa using hst)
      · exact ht b hb

theorem pairwise_sortStrs (l : List String) :
    (sortStrs l).Pairwise (fun a b => strLeb a b = true) := by
  induction l with
  | nil => simp [sortStrs]
  | cons s rest ih => exact pairwise_insertSorted s (sortStrs rest) ih

/-- Claim C6: a CSV whose header lacks required columns fails to load with a
missing-columns error naming every absent required column, in sorted
(lexicographic) order; the presence check is by exact string equality and
extra header columns never cause this error. -/
theorem claim_C6 (header : List String) (rows : List RawRow)
    (hne : header ≠ []) :
    (missingCols header ≠ [] →
      parse_csv ⟨header, rows⟩ =
        .error (.missingColumns (missingCols header))) ∧
    (∀ c ∈ requiredColumns, header.contains c = false →
      c ∈ missingCols header) ∧
    (∀ c ∈ missingCols header,
      c ∈ requiredColumns ∧ header.contains c = false) ∧
    (missingCols header).Pairwise (fun a b => strLeb a b = true) ∧
    (missingCols header = [] →
      ∀ e, parse_csv ⟨header, rows⟩ ≠ .error (.missingColumns e)) := by
  refine ⟨?_, ?_, ?_, pairwise_sortStrs _, ?_⟩
  · intro h
    simp [parse_csv, hne, h]
  · intro c hc hcont
    rw [missingCols, mem_sortStrs, List.mem_filter]
    refine ⟨hc, ?_⟩
    simpa using hcont
  · intro c hc
    rw [missingCols, mem_sortStrs, List.mem_filter] at hc
    refine ⟨hc.1, ?_⟩
    simpa using hc.2
  · intro h e
    simp [parse_csv, hne, h]
    split <;> simp

/-- Witness for C6: a header with only two of the required columns fails
with the three absent columns named in sorted order. -/
theorem claim_C6_witness :
    parse_csv ⟨["transaction_id", "date"], ([] : List RawRow)⟩ =
      .error (.missingColumns ["amount", "customer_name", "item"]) :=
  (claim_C6 ["transaction_id", "date"] [] (by decide)).1 (by decide)

theorem validateRows_errs_mem (rows : List RawRow) :
    ∀ (start i : Nat) (hi : i < rows.length),
      rowErrors (rows.get ⟨i, hi⟩) ≠ [] →
        (start + i, rowErrors (rows.get ⟨i, hi⟩)) ∈
          (validateRows start rows).2 := by
  induction rows with
  | nil => intro start i hi _; exact absurd hi (by simp)
  | cons r rest ih =>
    intro start i hi hne
    cases i with
    | zero =>
      have hr : rowErrors r ≠ [] := hne
      simp only [validateRows]
      rw [validateRow_error r hr]
      simp
    | succ i =>
      have hi' : i < rest.length := by simpa using hi
      have hne' : rowErrors (rest.get ⟨i, hi'⟩) ≠ [] := hne
      have hmem := ih (start + 1) i hi' hne'
      have harith : start + (i + 1) = (start + 1) + i := by omega
      simp only [validateRows]
      cases hv : validateRow r with
      | ok v =>
        simp only [hv, List.get]
        rw [harith]
        exact hmem
      | error e =>
        simp only [hv, List.get]
        rw [harith]
        exact List.mem_cons_of_mem _ hmem

theorem validateRows_errs_lb (rows : List RawRow) :
    ∀ start p, p ∈ (validateRows start rows).2 → start ≤ p.1 := by
  induction rows with
  | nil => intro start p hp; simp [validateRows] at hp
  | cons r rest ih =>
    intro start p hp
    simp only [validateRows] at hp
    cases hv : validateRow r with
    | ok v =>
      rw [hv] at hp
      have := ih (start + 1) p hp
      omega
    | error e =>
      rw [hv] at hp
      rcases List.mem_cons.mp hp with rfl | hp
      · simp
      · have := ih (start + 1) p hp
        omega

theorem validateRows_errs_pairwise (rows : List RawRow) :
    ∀ start,
      ((validateRows start rows).2).Pairwise (fun p q => p.1 < q.1) := by
  induction rows with
  | nil => intro start; simp [validateRows]
  | cons r rest ih =>
    intro start
    simp only [validateRows]
    cases hv : validateRow r with
    | ok v =>
      exact ih (start + 1)
    | error e =>
      refine List.pairwise_cons.mpr ⟨?_, ih (start + 1)⟩
      intro q hq
      have := validateRows_errs_lb rest (start + 1) q hq
      simp only []
      omega

theorem validateRows_errs_nil (rows : List RawRow) :
    ∀ start, (validateRows start rows).2 = [] →
      ∀ r ∈ rows, rowErrors r = [] := by
  induction rows with
  | nil => simp
  | cons r rest ih =>
    intro start h s hs
    simp only [validateRows] at h
    cases hv : validateRow r with
    | error e =>
      rw [hv] at h
      simp at h
    | ok v =>
      rw [hv] at h
      rcases List.mem_cons.mp hs with rfl | hs
      · by_contra hr
        have h2 := validateRow_error s hr
        rw [hv] at h2
        cases h2
      · exact ih (start + 1) h s hs

/-- Claim C1: CSV loading is all-or-nothing with full error aggregation —
when any data row fails schema validation, `parse_csv` returns no rows and
fails once with the ordered error list that contains, for every failing row,
that row's number (data rows numbered from 2) paired with all of that row's
field errors; it never stops at the first bad row. -/
theorem claim_C1 (csv : CSVFile) (hh : csv.header ≠ [])
    (hm : missingCols csv.header = [])
    (hbad : ∃ r ∈ csv.rows, rowErrors r ≠ []) :
    parse_csv csv =
      .error (.validationFailed (validateRows 2 csv.rows).2) ∧
    ((validateRows 2 csv.rows).2).Pairwise (fun p q => p.1 < q.1) ∧
    ∀ (i : Nat) (hi : i < csv.rows.length),
      rowErrors (csv.rows.get ⟨i, hi⟩) ≠ [] →
        (i + 2, rowErrors (csv.rows.get ⟨i, hi⟩)) ∈
          (validateRows 2 csv.rows).2 := by
  have herr : (validateRows 2 csv.rows).2 ≠ [] := by
    intro h0
    rcases hbad with ⟨r, hmem, hne⟩
    exact hne (validateRows_errs_nil csv.rows 2 h0 r hmem)
  refine ⟨?_, validateRows_errs_pairwise csv.rows 2, ?_⟩
  · simp [parse_csv, hh, hm, herr]
  · intro i hi hne
    have hmem := validateRows_errs_mem csv.rows 2 i hi hne
    rwa [Nat.add_comm 2 i] at hmem

/-- A data row violating three field rules at once. -/
def rowBadW : RawRow := ⟨"", "Bob", "2026-13-45", "Gadget", "0"⟩

/-- A fully valid data row. -/
def rowGoodW : RawRow := ⟨"T1", "Alice", "2026-01-15", "Widget", "10"⟩

/-- A CSV with invalid data rows at file rows 3 and 5. -/
def csvBad : CSVFile :=
  ⟨requiredColumns, [rowGoodW, rowBadW, rowGoodW, rowBadW]⟩

/-- Witness for C1: a CSV with two bad rows among four fails once with both
rows' numbers and errors collected. -/
theorem claim_C1_witness :
    parse_csv csvBad =
      .error (.validationFailed (validateRows 2 csvBad.rows).2) ∧
    (3, rowErrors rowBadW) ∈ (validateRows 2 csvBad.rows).2 ∧
    (5, rowErrors rowBadW) ∈ (validateRows 2 csvBad.rows).2 :=
  ⟨(claim_C1 csvBad (by decide) (by decide)
      ⟨rowBadW, by decide, by decide⟩).1,
   (claim_C1 csvBad (by decide) (by decide)
      ⟨rowBadW, by decide, by decide⟩).2.2 1 (by decide) (by decide),
   (claim_C1 csvBad (by decide) (by decide)
      ⟨rowBadW, by decide, by decide⟩).2.2 3 (by decide) (by decide)⟩

theorem processRows_count (eff : Nat → Except String Unit) (total : Nat)
    (rows : List InvoiceRow) :
    ∀ idx, (processRows eff total idx rows).1.successful.length +
      (processRows eff total idx rows).1.failed.length = rows.length := by
  induction rows with
  | nil => intro idx; simp [processRows]
  | cons r rest ih =>
    intro idx
    have hr := ih (idx + 1)
    simp only [processRows]
    cases eff idx with
    | ok u => simp only [List.length_cons]; omega
    | error m => simp only [List.length_cons]; omega

theorem processRows_events_len (eff : Nat → Except String Unit)
    (total : Nat) (rows : List InvoiceRow) :
    ∀ idx, (processRows eff total idx rows).2.length = rows.length := by
  induction rows with
  | nil => intro idx; simp [processRows]
  | cons r rest ih =>
    intro idx
    have hr := ih (idx + 1)
    simp only [processRows]
    cases eff idx with
    | ok u => simp only [List.length_cons]; omega
    | error m => simp only [List.length_cons]; omega

theorem processRows_events_get (eff : Nat → Except String Unit)
    (total : Nat) (rows : List InvoiceRow) :
    ∀ (idx k : Nat) (hk : k < rows.length),
      (processRows eff total idx rows).2[k]? =
        some (idx + k, total,
          pdfName (rows.get ⟨k, hk⟩).transaction_id) := by
  induction rows with
  | nil => intro idx k hk; exact absurd hk (by simp)
  | cons r rest ih =>
    intro idx k hk
    simp only [processRows]
    cases eff idx with
    | ok u =>
      cases k with
      | zero => simp
      | succ k =>
        have hk' : k < rest.length := by simpa using hk
        have harith : idx + (k + 1) = (idx + 1) + k := by omega
        simp only [List.getElem?_cons_succ]
        rw [harith]
        exact ih (idx + 1) k hk'
    | error m =>
      cases k with
      | zero => simp
      | succ k =>
        have hk' : k < rest.length := by simpa using hk
        have harith : idx + (k + 1) = (idx + 1) + k := by omega
        simp only [List.getElem?_cons_succ]
        rw [harith]
        exact ih (idx + 1) k hk'

theorem processRows_failed_mem (eff : Nat → Except String Unit)
    (total : Nat) (rows : List InvoiceRow) :
    ∀ (idx k : Nat) (hk : k < rows.length) (m : String),
      eff (idx + k) = .error m →
        (pdfName (rows.get ⟨k, hk⟩).transaction_id, m) ∈
          (processRows eff total idx rows).1.failed := by
  induction rows with
  | nil => intro idx k hk; exact absurd hk (by simp)
  | cons r rest ih =>
    intro idx k hk m hm
    cases k with
    | zero =>
      rw [Nat.add_zero] at hm
      simp only [processRows, hm]
      exact List.mem_cons_self _ _
    | succ k =>
      have hk' : k < rest.length := by simpa using hk
      have hm' : eff ((idx + 1) + k) = .error m := by
        rw [← hm]
        congr 1
        omega
      have hmem := ih (idx + 1) k hk' m hm'
      simp only [processRows]
      cases eff idx with
      | ok u => exact hmem
      | error m2 => exact List.mem_cons_of_mem _ hmem

theorem processRows_success_mem (eff : Nat → Except String Unit)
    (total : Nat) (rows : List InvoiceRow) :
    ∀ (idx k : Nat) (hk : k < rows.length),
      eff (idx + k) = .ok () →
        pdfName (rows.get ⟨k, hk⟩).transaction_id ∈
          (processRows eff total idx rows).1.successful := by
  induction rows with
  | nil => intro idx k hk; exact absurd hk (by simp)
  | cons r rest ih =>
    intro idx k hk hm
    cases k with
    | zero =>
      rw [Nat.add_zero] at hm
      simp only [processRows, hm]
      exact List.mem_cons_self _ _
    | succ k =>
      have hk' : k < rest.length := by simpa using hk
      have hm' : eff ((idx + 1) + k) = .ok () := by
        rw [← hm]
        congr 1
        omega
      have hmem := ih (idx + 1) k hk' hm'
      simp only [processRows]
      cases eff idx with
      | ok u => exact List.mem_cons_of_mem _ hmem
      | error m2 => exact hmem

/-- Claim C2: generation is per-row best-effort — with `N` validated rows,
every row whose render/export fails contributes `(derived filename, error
text)` to the failure list and every succeeding row its filename to the
success list, the two lists together covering all `N` rows (the run never
aborts on a row failure). -/
theorem claim_C2 (te : Option Bool) (n a i : String) (csv : CSVFile)
    (eff : Nat → Except String Unit) (rows : List InvoiceRow)
    (hte : te ≠ some false) (hs : sellerErrors n a i = [])
    (hp : parse_csv csv = .ok rows) (hne : rows ≠ []) :
    ∃ res, (generate_invoices te n a i csv eff).result = .ok res ∧
      res.successful.length + res.failed.length = rows.length ∧
      (∀ (k : Nat) (hk : k < rows.length) (m : String),
        eff (k + 1) = .error m →
          (pdfName (rows.get ⟨k, hk⟩).transaction_id, m) ∈ res.failed) ∧
      (∀ (k : Nat) (hk : k < rows.length),
        eff (k + 1) = .ok () →
          pdfName (rows.get ⟨k, hk⟩).transaction_id ∈ res.successful) := by
  have hgen : generate_invoices te n a i csv eff =
      { result := .ok (processRows eff rows.length 1 rows).1
        events := (processRows eff rows.length 1 rows).2
        dirCreated := true } := by
    simp [generate_invoices, hte, hs, hp, hne]
  refine ⟨(processRows eff rows.length 1 rows).1, by rw [hgen], ?_, ?_, ?_⟩
  · exact processRows_count eff rows.length rows 1
  · intro k hk m hm
    have hm' : eff (1 + k) = .error m := by rwa [Nat.add_comm 1 k]
    exact processRows_failed_mem eff rows.length rows 1 k hk m hm'
  · intro k hk hm
    have hm' : eff (1 + k) = .ok () := by rwa [Nat.add_comm 1 k]
    exact processRows_success_mem eff rows.length rows 1 k hk hm'

/-- Claim C3: the progress callback fires exactly once per row, in file
order, with arguments `(k, N, filename of row k)` for `k = 1..N` — a
strictly increasing completed-count — for failing rows just as for
succeeding ones (the statement holds for every row-effect `eff`). -/
theorem claim_C3 (te : Option Bool) (n a i : String) (csv : CSVFile)
    (eff : Nat → Except String Unit) (rows : List InvoiceRow)
    (hte : te ≠ some false) (hs : sellerErrors n a i = [])
    (hp : parse_csv csv = .ok rows) (hne : rows ≠ []) :
    (generate_invoices te n a i csv eff).events.length = rows.length ∧
    ∀ (k : Nat) (hk : k < rows.length),
      (generate_invoices te n a i csv eff).events[k]? =
        some (k + 1, rows.length,
          pdfName (rows.get ⟨k, hk⟩).transaction_id) := by
  have hgen : generate_invoices te n a i csv eff =
      { result := .ok (processRows eff rows.length 1 rows).1
        events := (processRows eff rows.length 1 rows).2
        dirCreated := true } := by
    simp [generate_invoices, hte, hs, hp, hne]
  rw [hgen]
  refine ⟨processRows_events_len eff rows.length rows 1, ?_⟩
  intro k hk
  rw [processRows_events_get eff rows.length rows 1 k hk, Nat.add_comm 1 k]

/-- A valid three-row CSV. -/
def csvW : CSVFile :=
  ⟨requiredColumns,
   [⟨"T1", "Alice", "2026-01-15", "Widget", "10"⟩,
    ⟨"T2", "Bob", "2026-01-15", "Gadget", "1"⟩,
    ⟨"T3", "Carol", "2026-01-15", "Gizmo", "2"⟩]⟩

/-- The validated rows of `csvW`. -/
def rowsW : List InvoiceRow :=
  [⟨"T1", "Alice", "2026-01-15", "Widget", ⟨10, 0⟩⟩,
   ⟨"T2", "Bob", "2026-01-15", "Gadget", ⟨1, 0⟩⟩,
   ⟨"T3", "Carol", "2026-01-15", "Gizmo", ⟨2, 0⟩⟩]

/-- A row effect failing exactly at the second row. -/
def effW : Nat → Except String Unit :=
  fun k => if k = 2 then .error "Permission denied" else .ok ()

/-- Witness for C2: with row 2 of 3 failing during export, the outcome has
2 successes and 1 failure, and the run covers all three rows. -/
theorem claim_C2_witness :
    ∃ res, (generate_invoices none "S" "A" "I" csvW effW).result = .ok res ∧
      res.successful.length + res.failed.length = rowsW.length ∧
      ("T2.pdf", "Permission denied") ∈ res.failed ∧
      "T1.pdf" ∈ res.successful ∧ "T3.pdf" ∈ res.successful := by
  obtain ⟨res, h1, h2, h3, h4⟩ :=
    claim_C2 none "S" "A" "I" csvW effW rowsW (by decide) (by decide)
      (by decide) (by decide)
  refine ⟨res, h1, h2, ?_, ?_, ?_⟩
  · exact h3 1 (by decide) "Permission denied" (by decide)
  · exact h4 0 (by decide) (by decide)
  · exact h4 2 (by decide) (by decide)

/-- Witness for C3: on the three-row CSV the callbacks are exactly
`(1,3,T1.pdf)`, `(2,3,T2.pdf)`, `(3,3,T3.pdf)` — also for failing row 2. -/
theorem claim_C3_witness :
    (generate_invoices none "S" "A" "I" csvW effW).events.length =
      rowsW.length ∧
    (generate_invoices none "S" "A" "I" csvW effW).events[0]? =
      some (1, 3, "T1.pdf") ∧
    (generate_invoices none "S" "A" "I" csvW effW).events[1]? =
      some (2, 3, "T2.pdf") ∧
    (generate_invoices none "S" "A" "I" csvW effW).events[2]? =
      some (3, 3, "T3.pdf") := by
  obtain ⟨h1, h2⟩ :=
    claim_C3 none "S" "A" "I" csvW effW rowsW (by decide) (by decide)
      (by decide) (by decide)
  exact ⟨h1, h2 0 (by decide), h2 1 (by decide), h2 2 (by decide)⟩

theorem escChar_no_markup (c : Char) (d : Char) (hd : d ∈ escChar c) :
    isMarkupChar d = false := by
  unfold escChar at hd
  by_cases h1 : c = '&'
  · rw [if_pos h1] at hd
    simp only [List.mem_cons, List.not_mem_nil, or_false] at hd
    rcases hd with rfl | rfl | rfl | rfl | rfl <;> decide
  · rw [if_neg h1] at hd
    by_cases h2 : c = '<'
    · rw [if_pos h2] at hd
      simp only [List.mem_cons, List.not_mem_nil, or_false] at hd
      rcases hd with rfl | rfl | rfl | rfl <;> decide
    · rw [if_neg h2] at hd
      by_cases h3 : c = '>'
      · rw [if_pos h3] at hd
        simp only [List.mem_cons, List.not_mem_nil, or_false] at hd
        rcases hd with rfl | rfl | rfl | rfl <;> decide
      · rw [if_neg h3] at hd
        by_cases h4 : c = '"'
        · rw [if_pos h4] at hd
          simp only [List.mem_cons, List.not_mem_nil, or_false] at hd
          rcases hd with rfl | rfl | rfl | rfl | rfl <;> decide
        · rw [if_neg h4] at hd
          by_cases h5 : c = '\''
          · rw [if_pos h5] at hd
            simp only [List.mem_cons, List.not_mem_nil, or_false] at hd
            rcases hd with rfl | rfl | rfl | rfl | rfl <;> decide
          · rw [if_neg h5] at hd
            simp only [List.mem_cons, List.not_mem_nil, or_false] at hd
            rcases hd with rfl
            simp [isMarkupChar, h2, h3, h4, h5]

theorem escChars_no_markup (cs : List Char) :
    ∀ d ∈ escChars cs, isMarkupChar d = false := by
  induction cs with
  | nil => intro d hd; cases hd
  | cons c rest ih =>
    intro d hd
    rw [escChars] at hd
    rcases List.mem_append.mp hd with h | h
    · exact escChar_no_markup c d h
    · exact ih d h

/-- A template whose literal pieces contain no structural markup character:
all markup in the rendered document then comes from substituted values. -/
def cleanPieces (tmpl : List TemplatePiece) : Bool :=
  tmpl.all (fun p => match p with
    | .lit s => s.data.all (fun c => !isMarkupChar c)
    | .expr _ => true)

/-- Claim C9: no user-supplied value can be interpreted as markup in the
document returned by `render_invoice` — every substituted value is escaped
so that it contains none of `<`, `>`, `"`, `'`, and hence over any template
whose own literals are markup-free the whole rendered document is
markup-free, whatever markup-special characters (e.g. `<script>`) the
seller/invoice fields contain. -/
theorem claim_C9 (tmpl : List TemplatePiece) (seller : SellerInfo)
    (inv : InvoiceRow) :
    (∀ s : String, (htmlEscape s).data.all (fun c => !isMarkupChar c) = true) ∧
    (cleanPieces tmpl = true →
      (render_invoice tmpl seller inv).data.all
        (fun c => !isMarkupChar c) = true) := by
  have hesc : ∀ s : String,
      (htmlEscape s).data.all (fun c => !isMarkupChar c) = true := by
    intro s
    rw [List.all_eq_true]
    intro d hd
    simp [escChars_no_markup s.data d hd]
  refine ⟨hesc, ?_⟩
  intro hclean
  show (renderPieces seller inv tmpl).all (fun c => !isMarkupChar c) = true
  induction tmpl with
  | nil => rfl
  | cons p rest ih =>
    rw [cleanPieces, List.all_cons, Bool.and_eq_true] at hclean
    have hrest := ih hclean.2
    cases p with
    | lit s =>
      have hl : s.data.all (fun c => !isMarkupChar c) = true := hclean.1
      rw [renderPieces, List.all_append, hrest, hl]
      rfl
    | expr f =>
      have hseg : (escChars (fieldValue seller inv f).data).all
          (fun c => !isMarkupChar c) = true := hesc (fieldValue seller inv f)
      rw [renderPieces, List.all_append, hrest, hseg]
      rfl

/-- Witness for C9: a concrete markup-free template and an invoice whose
item field is `<script>alert('x')</script>` render with no unescaped markup
character. -/
theorem claim_C9_witness :
    (htmlEscape "<script>").data.all (fun c => !isMarkupChar c) = true ∧
    (render_invoice [.lit "Invoice item: ", .expr .invItem]
        ⟨"S", "A", "I"⟩
        ⟨"T1", "Alice", "2026-01-15", "<script>alert('x')</script>", ⟨10, 0⟩⟩).data.all
      (fun c => !isMarkupChar c) = true :=
  ⟨(claim_C9 [] ⟨"S", "A", "I"⟩
      ⟨"T1", "Alice", "2026-01-15", "x", ⟨10, 0⟩⟩).1 "<script>",
   (claim_C9 [.lit "Invoice item: ", .expr .invItem]
      ⟨"S", "A", "I"⟩
      ⟨"T1", "Alice", "2026-01-15", "<script>alert('x')</script>", ⟨10, 0⟩⟩).2
     (by decide)⟩

end InvoiceGen
